import Mathlib

/-!
Verification of the rail-inclination QC dashboard core
(`src/utils.py`, `src/app.py`).

Conventions of the shallow embedding:
* Python floats are modelled as rationals (`ℚ`); a missing value / `NaN`
  is `Option.none`.
* Python strings are modelled as Lean `String`s restricted to the ASCII
  behaviour of `str.strip`, `str.lower`, `re` digit classes and
  `int(-, 16)` (all inputs exercised by the program are ASCII).
* `pd.to_datetime(-, errors="coerce", utc=True)` is modelled as an
  arbitrary element-wise parse function into epoch seconds (`Option ℤ`);
  `.dt.hour` on a UTC timestamp is `(t / 3600) % 24`.
-/

set_option autoImplicit false

namespace RailQC

/-- The eight severity categories of spec section 4.1. -/
inductive Category where
  | normal
  | elevatedPositive
  | moderatePositive
  | severePositive
  | elevatedNegative
  | moderateNegative
  | severeNegative
  | unknown
  deriving DecidableEq

/-- Presentation mapping (category to display color) of spec section 4.1.
This is the glue between the spec's category vocabulary and the color
strings that `get_color` in `src/utils.py` actually returns. -/
def color_of_category : Category → String
  | .normal => "green"
  | .elevatedPositive => "yellow"
  | .moderatePositive => "orange"
  | .severePositive => "red"
  | .elevatedNegative => "lightblue"
  | .moderateNegative => "blue"
  | .severeNegative => "purple"
  | .unknown => "gray"

/-- Embedding of `get_color` (`src/utils.py`, lines 14-36).
`none` models a `NaN`/missing value (`pd.isna`). -/
def get_color (val : Option ℚ) : String :=
  match val with
  | none => "gray"
  | some v =>
    let abs_val : ℚ := |v|
    if abs_val < 7/100 then "green"
    else if 0 ≤ v then
      if abs_val < 95/1000 then "yellow"
      else if abs_val > 15/100 then "red"
      else "orange"
    else
      if abs_val < 1/10 then "lightblue"
      else if abs_val > 15/100 then "purple"
      else "blue"

/-- ASCII model of Python's whitespace class (used by `str.strip`,
`\s` in the regex, and `int` parsing). -/
def pyIsSpace (c : Char) : Bool :=
  c = ' ' || c = '\t' || c = '\n' || c = '\r' || c = '\x0b' || c = '\x0c'

/-- `str.strip()` on a character list (ASCII whitespace model). -/
def pyStripChars (l : List Char) : List Char :=
  ((l.dropWhile pyIsSpace).reverse.dropWhile pyIsSpace).reverse

/-- `str.lower()` (ASCII model; `Char.toLower` lowers exactly `A`-`Z`). -/
def pyLowerChars (l : List Char) : List Char :=
  l.map Char.toLower

/-- The `NAMED` dict of `hex_to_rgb_list` (`src/utils.py`, lines 41-52),
as the key-lookup function the dict provides. Channels live in `ℤ`
because, as proved below, the hex branch can escape `[0, 255]`. -/
def NAMED_lookup (s : String) : Option (List ℤ) :=
  if s = "gray" then some [128, 128, 128]
  else if s = "green" then some [0, 128, 0]
  else if s = "yellow" then some [255, 255, 0]
  else if s = "orange" then some [255, 165, 0]
  else if s = "lightblue" then some [173, 216, 230]
  else if s = "purple" then some [128, 0, 128]
  else if s = "blue" then some [0, 0, 255]
  else if s = "red" then some [255, 0, 0]
  else if s = "black" then some [0, 0, 0]
  else if s = "white" then some [255, 255, 255]
  else none

/-- `str(c).strip().lower()` (`src/utils.py`, line 61), ASCII model. -/
def pyNormalize (s : String) : String :=
  ⟨pyLowerChars (pyStripChars s.toList)⟩

/-- Decimal digit value (`\d` of the regex, ASCII model; `'0' = 48`). -/
def digitVal? (c : Char) : Option ℕ :=
  if 48 ≤ c.toNat ∧ c.toNat ≤ 57 then some (c.toNat - 48) else none

/-- Hexadecimal digit value, as accepted by Python's `int(-, 16)`
(`'0' = 48`, `'a' = 97`, `'A' = 65`). -/
def hexDigitVal? (c : Char) : Option ℕ :=
  if 48 ≤ c.toNat ∧ c.toNat ≤ 57 then some (c.toNat - 48)
  else if 97 ≤ c.toNat ∧ c.toNat ≤ 102 then some (c.toNat - 97 + 10)
  else if 65 ≤ c.toNat ∧ c.toNat ≤ 70 then some (c.toNat - 65 + 10)
  else none

/-- Python's `int(s, 16)` on a two-character string `s = ⟨c₁, c₂⟩`:
besides two hex digits, `int` also accepts an optional sign and
leading/trailing whitespace, so `int("-1", 16) = -1` and
`int(" f", 16) = int("f ", 16) = 15`. Returns `none` where Python
raises `ValueError`. -/
def pyIntHex2 (c₁ c₂ : Char) : Option ℤ :=
  match hexDigitVal? c₁, hexDigitVal? c₂ with
  | some d₁, some d₂ => some (16 * d₁ + d₂)
  | some d₁, none => if pyIsSpace c₂ then some d₁ else none
  | none, some d₂ =>
    if c₁ = '+' then some d₂
    else if c₁ = '-' then some (-(d₂ : ℤ))
    else if pyIsSpace c₁ then some d₂
    else none
  | none, none => none

/-- `\s*` of the regex. -/
def skipWs : List Char → List Char
  | [] => []
  | c :: cs => if pyIsSpace c then skipWs cs else c :: cs

/-- `(\d{1,3})` of the regex: one to three decimal digits, greedily.
Returns the numeric value of the digits taken and the rest of the input.
(Backtracking to fewer digits never helps the surrounding pattern, since
the shorter match would be followed by a digit where `,` or the end of
the pattern is required, so the greedy reading is exact.) -/
def takeUpTo3Digits : List Char → Option (ℕ × List Char)
  | [] => none
  | c₁ :: r₁ =>
    match digitVal? c₁ with
    | none => none
    | some d₁ =>
      match r₁ with
      | [] => some (d₁, [])
      | c₂ :: r₂ =>
        match digitVal? c₂ with
        | none => some (d₁, c₂ :: r₂)
        | some d₂ =>
          match r₂ with
          | [] => some (10 * d₁ + d₂, [])
          | c₃ :: r₃ =>
            match digitVal? c₃ with
            | none => some (10 * d₁ + d₂, c₃ :: r₃)
            | some d₃ => some (100 * d₁ + 10 * d₂ + d₃, r₃)

/-- The regex `re.match(r"rgba?\(\s*(\d{1,3})\s*,\s*(\d{1,3})\s*,\s*(\d{1,3})", s)`
of `hex_to_rgb_list` (`src/utils.py`, line 70): an anchored prefix match;
nothing after the third digit group is required (no closing parenthesis). -/
def parse_rgb (l : List Char) : Option (ℕ × ℕ × ℕ) :=
  match l with
  | 'r' :: 'g' :: 'b' :: rest =>
    let rest₁ := match rest with
      | 'a' :: r => r
      | r => r
    match rest₁ with
    | '(' :: r₁ =>
      match takeUpTo3Digits (skipWs r₁) with
      | none => none
      | some (a, r₂) =>
        match skipWs r₂ with
        | ',' :: r₃ =>
          match takeUpTo3Digits (skipWs r₃) with
          | none => none
          | some (b, r₄) =>
            match skipWs r₄ with
            | ',' :: r₅ =>
              match takeUpTo3Digits (skipWs r₅) with
              | none => none
              | some (c, _) => some (a, b, c)
            | _ => none
        | _ => none
    | _ => none
  | _ => none

/-- The `clamp` lambda of `hex_to_rgb_list` (`src/utils.py`, line 73). -/
def clamp (x : ℤ) : ℤ := max 0 (min 255 x)

/-- The `#RGB` expansion (`src/utils.py`, line 80): double every character. -/
def doubleChars (l : List Char) : List Char :=
  l.flatMap (fun c => [c, c])

/-- The character list handed to the final hex parse
(`src/utils.py`, lines 77-80): drop one leading `#` if present, then
expand a 3-character form by doubling every character. -/
def hexCandidate (s : String) : List Char :=
  let t : List Char :=
    match s.toList with
    | '#' :: rest => rest
    | l => l
  if t.length = 3 then doubleChars t else t

/-- The 6-character hex parse (`src/utils.py`, lines 81-85): three
`int(-, 16)` calls on the two-character slices, any `ValueError`
falling through to gray; a non-6-character candidate is also gray. -/
def hexSix (u : List Char) : List ℤ :=
  match u with
  | [a, b, c, d, e, f] =>
    match pyIntHex2 a b, pyIntHex2 c d, pyIntHex2 e f with
    | some x, some y, some z => [x, y, z]
    | _, _, _ => [128, 128, 128]
  | _ => [128, 128, 128]

/-- Embedding of `hex_to_rgb_list` (`src/utils.py`, lines 38-88).
`none` models a `None`/`NaN` argument. The misplacement column values
reaching this function are the strings produced by `get_color`. -/
def hex_to_rgb_list (c : Option String) : List ℤ :=
  match c with
  | none => [128, 128, 128]
  | some raw =>
    let s : String := pyNormalize raw
    if s = "" then [128, 128, 128]
    else
      match NAMED_lookup s with
      | some v => v
      | none =>
        match parse_rgb s.toList with
        | some (r, g, b) => [clamp r, clamp g, clamp b]
        | none => hexSix (hexCandidate s)

/-- One cell of an uploaded table, as produced by the external
parquet/CSV reader: missing (`NaN`), a number, a string, or an
already-parsed datetime (epoch seconds). -/
inductive Cell where
  | na
  | num (q : ℚ)
  | str (s : String)
  | dt (epochSec : ℤ)
  deriving DecidableEq

/-- A raw table as handed to `load_data` by the reader: column names
plus rows of cells (row `i`'s cell for column `cols[j]` is `rows[i][j]`). -/
structure RawTable where
  cols : List String
  rows : List (List Cell)

/-- `REQUIRED_COLS` (`src/app.py`, lines 19-23). -/
def REQUIRED_COLS : List String :=
  ["lat", "lon", "ts", "fwd_path", "pole_id",
   "rail_incl_corrected", "misplacement",
   "rail_top_amsl", "asphalt_amsl", "shoulder_amsl"]

/-- Column access `row[c]` given the table's column list. -/
def getCell (cols : List String) (row : List Cell) (c : String) : Cell :=
  match cols.findIdx? (· == c) with
  | some i => row.getD i .na
  | none => .na

/-- Numeric view of a cell (`pd.isna` + float), the input to `get_color`:
the `misplacement` column is numeric-or-missing as produced by the reader. -/
def cellFloat : Cell → Option ℚ
  | .num q => some q
  | _ => none

/-- One row of the cleaned table that `load_data` returns: the ten
required columns (with `ts` replaced by the coerced datetime), plus the
derived `hour`, `row_id`, `color_hex` and `rgb` columns. -/
structure CleanRow where
  lat : Cell
  lon : Cell
  ts : Option ℤ
  fwd_path : Cell
  pole_id : Cell
  rail_incl_corrected : Cell
  misplacement : Cell
  rail_top_amsl : Cell
  asphalt_amsl : Cell
  shoulder_amsl : Cell
  hour : Option ℤ
  row_id : ℕ
  color_hex : String
  rgb : List ℤ
  deriving DecidableEq

/-- Build one cleaned row at position `i` (`src/app.py`, lines 54-67):
`ts` coerced through the datetime parse, `hour := ts.dt.hour`
(= `(t / 3600) % 24` for a UTC epoch-second timestamp), `row_id := i`
(the index after `reset_index(drop=True)`), and the two color columns. -/
def mkCleanRow (parseTs : Cell → Option ℤ) (cols : List String)
    (i : ℕ) (row : List Cell) : CleanRow :=
  let cell := getCell cols row
  let ts : Option ℤ := parseTs (cell "ts")
  let ch : String := get_color (cellFloat (cell "misplacement"))
  { lat := cell "lat"
    lon := cell "lon"
    ts := ts
    fwd_path := cell "fwd_path"
    pole_id := cell "pole_id"
    rail_incl_corrected := cell "rail_incl_corrected"
    misplacement := cell "misplacement"
    rail_top_amsl := cell "rail_top_amsl"
    asphalt_amsl := cell "asphalt_amsl"
    shoulder_amsl := cell "shoulder_amsl"
    hour := ts.map (fun t => (t / 3600) % 24)
    row_id := i
    color_hex := ch
    rgb := hex_to_rgb_list (some ch) }

/-- Positional row construction starting at index `i`
(`reset_index(drop=True)` followed by `row_id := index`). -/
def buildClean (f : ℕ → List Cell → CleanRow) : ℕ → List (List Cell) → List CleanRow
  | _, [] => []
  | i, r :: rs => f i r :: buildClean f (i + 1) rs

/-- Embedding of the normalization core of `load_data`
(`src/app.py`, lines 50-69), starting from the table produced by the
external parquet/CSV reader. `parseTs` models the element-wise action of
`pd.to_datetime(-, errors="coerce", utc=True)` (an external-library
parse; `none` = `NaT`). A missing-column failure carries exactly the
list of missing required columns, in `REQUIRED_COLS` order, as the
`ValueError` message does. -/
def load_data (parseTs : Cell → Option ℤ) (df : RawTable) :
    Except (List String) (List CleanRow) :=
  let missing := REQUIRED_COLS.filter (fun c => !(df.cols.contains c))
  if missing = [] then
    .ok (buildClean (mkCleanRow parseTs df.cols) 0 df.rows)
  else
    .error missing

/-- One record of the edit ledger, exactly the dict appended at
`src/app.py`, lines 312-318; `new_value = none` is the explicit
"clear to NaN" marker. -/
structure EditRecord where
  row_id : ℤ
  pole_id : String
  column : String
  new_value : Option ℚ
  timestamp_utc : String
  deriving DecidableEq

/-- `st.session_state.edits.append(record)` (`src/app.py`, line 312):
Python list append. -/
def appendEdit (edits : List EditRecord) (r : EditRecord) : List EditRecord :=
  edits ++ [r]

/-- The numeric rendering shared by the two exporters. In the source
both `DataFrame.to_csv` and `json.dumps` stringify a float through the
same Python `repr`; the embedding models that shared rendering as one
function, which is what the cross-format round-trip claims rest on. -/
def floatRepr (q : ℚ) : String := toString q

/-- Minimal CSV quoting as performed by `DataFrame.to_csv`
(csv `QUOTE_MINIMAL`): quote, doubling inner quotes, only when the field
contains a separator, quote or line break. -/
def csvEscape (s : String) : String :=
  if s.toList.any (fun c => c = ',' || c = '"' || c = '\n' || c = '\r') then
    "\"" ++ s.replace "\"" "\"\"" ++ "\""
  else s

/-- The `new_value` column transform of the CSV export
(`src/app.py`, line 334): `"" if v is None else v`, then stringified by
`to_csv`. -/
def csv_new_value (v : Option ℚ) : String :=
  match v with
  | none => ""
  | some q => floatRepr q

/-- Header line written by `to_csv(index=False)`: the record's dict keys
in insertion order. -/
def csvHeader : String := "row_id,pole_id,column,new_value,timestamp_utc"

/-- One CSV data line of the export (`to_csv` joins the stringified,
minimally quoted cells with commas). -/
def csvRow (r : EditRecord) : String :=
  String.intercalate ","
    [toString r.row_id, csvEscape r.pole_id, csvEscape r.column,
     csv_new_value r.new_value, csvEscape r.timestamp_utc]

/-- The CSV export (`src/app.py`, lines 332-336): header line, one line
per record, `\n` terminated. -/
def exportCsv (edits : List EditRecord) : String :=
  String.intercalate "\n" (csvHeader :: edits.map csvRow) ++ "\n"

/-- JSON values as produced by `json.dumps` on an edit record. -/
inductive JVal where
  | jnull
  | jint (n : ℤ)
  | jnum (q : ℚ)
  | jstr (s : String)
  deriving DecidableEq

/-- JSON string escaping of `json.dumps` (the escapes reachable from
this program's strings). -/
def jsonEscape (s : String) : String :=
  "\"" ++
    ((((s.replace "\\" "\\\\").replace "\"" "\\\"").replace "\n" "\\n").replace
      "\r" "\\r").replace "\t" "\\t" ++ "\""

/-- Serialization of one JSON value. -/
def renderJVal : JVal → String
  | .jnull => "null"
  | .jint n => toString n
  | .jnum q => floatRepr q
  | .jstr s => jsonEscape s

/-- The JSON object `json.dumps` receives for one record
(`src/app.py`, line 340): the dict's key/value pairs in insertion order;
a `None` `new_value` is the JSON `null`, never omitted. -/
def jsonFields (r : EditRecord) : List (String × JVal) :=
  [("row_id", .jint r.row_id),
   ("pole_id", .jstr r.pole_id),
   ("column", .jstr r.column),
   ("new_value", match r.new_value with | none => .jnull | some q => .jnum q),
   ("timestamp_utc", .jstr r.timestamp_utc)]

/-- `json.dumps` of an object with the default separators. -/
def renderObj (kvs : List (String × JVal)) : String :=
  "\x7b" ++
    String.intercalate ", "
      (kvs.map (fun kv => jsonEscape kv.1 ++ ": " ++ renderJVal kv.2)) ++
    "\x7d"

/-- The JSON Lines export (`src/app.py`, lines 338-341): one
`json.dumps` object per record, each followed by `\n`. -/
def exportJsonLines (edits : List EditRecord) : String :=
  String.join (edits.map (fun r => renderObj (jsonFields r) ++ "\n"))

/-- Modelled from the spec: the last-write-wins reconciliation policy of
spec section 4.4 — among the ledger records for a `(row_id, column)`
pair, the last appended one is authoritative. The source keeps this
reconciler external to the ledger (documented policy only), so it is
modelled here from the spec's words. -/
def last_write_wins (edits : List EditRecord) (rid : ℤ) (col : String) :
    Option (Option ℚ) :=
  ((edits.filter (fun r => r.row_id == rid && r.column == col)).getLast?).map
    EditRecord.new_value

/-- The CSV-export step as an operation on the session state
(`src/app.py`, lines 332-336): it reads `st.session_state.edits` and
leaves the state untouched. -/
def exportCsvOp (s : List EditRecord) : List EditRecord × String :=
  (s, exportCsv s)

/-- A concrete instantiation of the datetime parse for the worked
scenario: two parseable timestamp strings, everything else `NaT`. -/
def demoParse : Cell → Option ℤ :=
  fun c =>
    match c with
    | .str "2021-05-01 10:15:00" => some 1619864100
    | .str "2021-05-01 11:20:00" => some 1619868000
    | _ => none

/-- The 3-row table of the spec's normalization scenario: all required
columns present, the middle row's timestamp unparseable. -/
def demoTable : RawTable :=
  { cols := REQUIRED_COLS
    rows :=
      [[.num 59, .num 10, .str "2021-05-01 10:15:00", .str "a.jpg", .str "P1", .na, .na, .na, .na, .na],
       [.num 59, .num 10, .str "not-a-date", .str "b.jpg", .str "P2", .na, .na, .na, .na, .na],
       [.num 59, .num 10, .str "2021-05-01 11:20:00", .str "c.jpg", .str "P3", .na, .na, .na, .na, .na]] }

/-- First edit of the spec's ledger scenario: clear `misplacement` of row 5. -/
def demoEdit1 : EditRecord :=
  ⟨5, "POLE-9", "misplacement", none, "2025-01-01T00:00:00+00:00"⟩

/-- Second edit of the spec's ledger scenario: set `misplacement` of row 5
to `0.12`. -/
def demoEdit2 : EditRecord :=
  ⟨5, "POLE-9", "misplacement", some (12/100), "2025-01-01T00:00:01+00:00"⟩

/-! ## Helper lemmas about the color codec -/

/-- Every named-table entry has three channels, all in `[0, 255]`. -/
lemma NAMED_lookup_spec {s : String} {v : List ℤ} (h : NAMED_lookup s = some v) :
    v.length = 3 ∧ ∀ x ∈ v, 0 ≤ x ∧ x ≤ 255 := by
  unfold NAMED_lookup at h
  iterate 10 all_goals try split at h
  all_goals first
    | (injection h with h; subst h; decide)
    | cases h

/-- The clamp of the `rgb()` branch lands in `[0, 255]`. -/
lemma clamp_bounds (x : ℤ) : 0 ≤ clamp x ∧ clamp x ≤ 255 := by
  unfold clamp; omega

/-- A hex digit value is at most 15. -/
lemma hexDigitVal?_le {c : Char} {d : ℕ} (h : hexDigitVal? c = some d) : d ≤ 15 := by
  unfold hexDigitVal? at h
  iterate 4 all_goals try split at h
  all_goals first
    | (injection h with h; omega)
    | cases h

/-- Range of Python's `int` on a two-character hex string: two hex digits
give `[0, 255]`, but a sign plus one digit can go down to `-15`. -/
lemma pyIntHex2_bounds {c₁ c₂ : Char} {x : ℤ} (h : pyIntHex2 c₁ c₂ = some x) :
    -15 ≤ x ∧ x ≤ 255 := by
  unfold pyIntHex2 at h
  rcases h1 : hexDigitVal? c₁ with _ | d₁ <;> rcases h2 : hexDigitVal? c₂ with _ | d₂ <;>
      simp only [h1, h2] at h
  · cases h
  · have := hexDigitVal?_le h2
    iterate 3 all_goals try split at h
    all_goals first
      | (injection h with h; omega)
      | cases h
  · have := hexDigitVal?_le h1
    split at h
    · injection h with h; omega
    · cases h
  · have := hexDigitVal?_le h1
    have := hexDigitVal?_le h2
    injection h with h
    omega

/-- Channels produced by the 6-character hex parse lie in `[-15, 255]`. -/
lemma hexSix_bounds (u : List Char) : ∀ x ∈ hexSix u, -15 ≤ x ∧ x ≤ 255 := by
  intro x hx
  unfold hexSix at hx
  split at hx
  · split at hx
    · next hx1 hx2 hx3 =>
      simp only [List.mem_cons, List.not_mem_nil, or_false] at hx
      rcases hx with rfl | rfl | rfl
      · exact pyIntHex2_bounds hx1
      · exact pyIntHex2_bounds hx2
      · exact pyIntHex2_bounds hx3
    · simp at hx; omega
  · simp at hx; omega

/-- The hex parse always yields a triple. -/
lemma hexSix_length (u : List Char) : (hexSix u).length = 3 := by
  unfold hexSix
  split
  · split <;> rfl
  · rfl

/-- The codec always yields a triple. -/
lemma hex_to_rgb_list_length (c : Option String) : (hex_to_rgb_list c).length = 3 := by
  cases c with
  | none => rfl
  | some raw =>
    simp only [hex_to_rgb_list]
    split
    · rfl
    · split
      · next v hv => exact (NAMED_lookup_spec hv).1
      · split
        · rfl
        · exact hexSix_length _

/-! ## Normalization helper lemmas -/

lemma buildClean_length (f : ℕ → List Cell → CleanRow) :
    ∀ (i : ℕ) (rs : List (List Cell)), (buildClean f i rs).length = rs.length := by
  intro i rs
  induction rs generalizing i with
  | nil => rfl
  | cons r rs ih => simp [buildClean, ih]

lemma buildClean_row_id (pt : Cell → Option ℤ) (cols : List String) :
    ∀ (rs : List (List Cell)) (i j : ℕ)
      (h : j < (buildClean (mkCleanRow pt cols) i rs).length),
      ((buildClean (mkCleanRow pt cols) i rs).get ⟨j, h⟩).row_id = i + j := by
  intro rs
  induction rs with
  | nil => intro i j h; simp [buildClean] at h
  | cons r rs ih =>
    intro i j h
    cases j with
    | zero => simp [buildClean, mkCleanRow]
    | succ j =>
      have := ih (i + 1) j (by
        simpa [buildClean, buildClean_length] using Nat.lt_of_succ_lt_succ (by
          simpa [buildClean, buildClean_length] using h))
      simp only [buildClean, List.get_cons_succ] at *
      rw [this]
      omega

lemma buildClean_mem (f : ℕ → List Cell → CleanRow) :
    ∀ (rs : List (List Cell)) (i : ℕ) (r : CleanRow),
      r ∈ buildClean f i rs → ∃ i₀ row₀, r = f i₀ row₀ := by
  intro rs
  induction rs with
  | nil => intro i r h; simp [buildClean] at h
  | cons row rs ih =>
    intro i r h
    simp only [buildClean, List.mem_cons] at h
    rcases h with rfl | h
    · exact ⟨i, row, rfl⟩
    · exact ih (i + 1) r h

lemma mkCleanRow_hour_iff (pt : Cell → Option ℤ) (cols : List String)
    (i : ℕ) (row : List Cell) :
    (mkCleanRow pt cols i row).hour = none ↔ (mkCleanRow pt cols i row).ts = none := by
  simp [mkCleanRow, Option.map_eq_none']

lemma mkCleanRow_hour_bound (pt : Cell → Option ℤ) (cols : List String)
    (i : ℕ) (row : List Cell) :
    ∀ h, (mkCleanRow pt cols i row).hour = some h → 0 ≤ h ∧ h < 24 := by
  intro h hh
  simp only [mkCleanRow] at hh
  cases hts : pt (getCell cols row "ts") with
  | none => rw [hts] at hh; cases hh
  | some t =>
    rw [hts] at hh
    injection hh with hh
    subst hh
    exact ⟨Int.emod_nonneg _ (by norm_num), Int.emod_lt_of_pos _ (by norm_num)⟩

/-! ## The claims -/

/-- C1: the classifier follows the threshold table with strict-< boundaries
and asymmetric positive/negative thresholds: `|v| < 0.07` is normal; for
`v ≥ 0`, `|v| < 0.095` is elevated-positive, `|v| > 0.15` severe-positive,
otherwise moderate-positive; for `v < 0`, `|v| < 0.10` is elevated-negative,
`|v| > 0.15` severe-negative, otherwise moderate-negative — including the
eight boundary cases listed by the spec. -/
theorem claim_C1 :
    (∀ v : ℚ, |v| < 7/100 → get_color (some v) = color_of_category .normal)
  ∧ (∀ v : ℚ, 0 ≤ v → 7/100 ≤ |v| → |v| < 95/1000 →
      get_color (some v) = color_of_category .elevatedPositive)
  ∧ (∀ v : ℚ, 0 ≤ v → 15/100 < |v| →
      get_color (some v) = color_of_category .severePositive)
  ∧ (∀ v : ℚ, 0 ≤ v → 95/1000 ≤ |v| → |v| ≤ 15/100 →
      get_color (some v) = color_of_category .moderatePositive)
  ∧ (∀ v : ℚ, v < 0 → 7/100 ≤ |v| → |v| < 1/10 →
      get_color (some v) = color_of_category .elevatedNegative)
  ∧ (∀ v : ℚ, v < 0 → 15/100 < |v| →
      get_color (some v) = color_of_category .severeNegative)
  ∧ (∀ v : ℚ, v < 0 → 1/10 ≤ |v| → |v| ≤ 15/100 →
      get_color (some v) = color_of_category .moderateNegative)
  ∧ get_color (some (7/100)) = color_of_category .elevatedPositive
  ∧ get_color (some (-(7/100))) = color_of_category .elevatedNegative
  ∧ get_color (some (95/1000)) = color_of_category .moderatePositive
  ∧ get_color (some (15/100)) = color_of_category .moderatePositive
  ∧ get_color (some (1501/10000)) = color_of_category .severePositive
  ∧ get_color (some (-(1/10))) = color_of_category .moderateNegative
  ∧ get_color (some (-(15/100))) = color_of_category .moderateNegative
  ∧ get_color (some (-(1501/10000))) = color_of_category .severeNegative := by
  refine ⟨?_, ?_, ?_, ?_, ?_, ?_, ?_, ?_, ?_, ?_, ?_, ?_, ?_, ?_, ?_⟩
  · intro v h
    simp only [get_color, color_of_category]
    split_ifs <;> first | rfl | linarith
  · intro v h0 h1 h2
    simp only [get_color, color_of_category]
    split_ifs <;> first | rfl | linarith
  · intro v h0 h1
    simp only [get_color, color_of_category]
    split_ifs <;> first | rfl | linarith
  · intro v h0 h1 h2
    simp only [get_color, color_of_category]
    split_ifs <;> first | rfl | linarith
  · intro v h0 h1 h2
    simp only [get_color, color_of_category]
    split_ifs <;> first | rfl | linarith
  · intro v h0 h1
    simp only [get_color, color_of_category]
    split_ifs <;> first | rfl | linarith
  · intro v h0 h1 h2
    simp only [get_color, color_of_category]
    split_ifs <;> first | rfl | linarith
  · simp only [get_color, color_of_category]
    rw [abs_of_nonneg (by norm_num : (0:ℚ) ≤ 7/100)]
    norm_num
  · simp only [get_color, color_of_category]
    rw [abs_of_nonpos (by norm_num : (-(7/100):ℚ) ≤ 0)]
    norm_num
  · simp only [get_color, color_of_category]
    rw [abs_of_nonneg (by norm_num : (0:ℚ) ≤ 95/1000)]
    norm_num
  · simp only [get_color, color_of_category]
    rw [abs_of_nonneg (by norm_num : (0:ℚ) ≤ 15/100)]
    norm_num
  · simp only [get_color, color_of_category]
    rw [abs_of_nonneg (by norm_num : (0:ℚ) ≤ 1501/10000)]
    norm_num
  · simp only [get_color, color_of_category]
    rw [abs_of_nonpos (by norm_num : (-(1/10):ℚ) ≤ 0)]
    norm_num
  · simp only [get_color, color_of_category]
    rw [abs_of_nonpos (by norm_num : (-(15/100):ℚ) ≤ 0)]
    norm_num
  · simp only [get_color, color_of_category]
    rw [abs_of_nonpos (by norm_num : (-(1501/10000):ℚ) ≤ 0)]
    norm_num

/-- Witness for C1: `0.08` satisfies the elevated-positive hypotheses and
classifies as elevated-positive. -/
theorem claim_C1_witness :
    ((0:ℚ) ≤ 8/100 ∧ (7:ℚ)/100 ≤ |(8:ℚ)/100| ∧ |(8:ℚ)/100| < 95/1000)
  ∧ get_color (some (8/100)) = color_of_category .elevatedPositive := by
  have hb : (7:ℚ)/100 ≤ |(8:ℚ)/100| ∧ |(8:ℚ)/100| < 95/1000 := by
    rw [abs_of_nonneg (by norm_num : (0:ℚ) ≤ 8/100)]
    norm_num
  exact ⟨⟨by norm_num, hb⟩, claim_C1.2.1 (8/100) (by norm_num) hb.1 hb.2⟩

/-- C2: the classifier and the codec are total — every finite value
classifies to one of the seven non-unknown categories (never gray), a
missing value classifies to gray (unknown), and the codec returns a
three-channel triple for every input, with `None` and the empty string
falling back to gray. -/
theorem claim_C2 :
    get_color none = "gray"
  ∧ (∀ v : ℚ, get_color (some v) ∈
      (["green", "yellow", "orange", "red", "lightblue", "blue", "purple"] : List String))
  ∧ (∀ v : ℚ, get_color (some v) ≠ "gray")
  ∧ (∀ c : Option String, (hex_to_rgb_list c).length = 3)
  ∧ hex_to_rgb_list none = [128, 128, 128]
  ∧ hex_to_rgb_list (some "") = [128, 128, 128] := by
  refine ⟨rfl, ?_, ?_, hex_to_rgb_list_length, rfl, by decide⟩
  · intro v
    simp only [get_color]
    split_ifs <;> decide
  · intro v
    simp only [get_color]
    split_ifs <;> decide

/-- C3: codec parsing precedence — named-color lookup on the stripped,
lowered token first, then the `rgb()`/`rgba()` pattern with channels
clamped, then the hex forms (leading `#` optional, 3-digit forms expanded
by doubling each digit); missing input and the listed concrete examples
behave as specified. -/
theorem claim_C3 :
    (∀ raw : String, ∀ v : List ℤ,
      NAMED_lookup (pyNormalize raw) = some v → hex_to_rgb_list (some raw) = v)
  ∧ (∀ raw : String, ∀ r g b : ℕ,
      NAMED_lookup (pyNormalize raw) = none →
      parse_rgb (pyNormalize raw).toList = some (r, g, b) →
      hex_to_rgb_list (some raw) = [clamp r, clamp g, clamp b])
  ∧ (∀ raw : String,
      NAMED_lookup (pyNormalize raw) = none →
      parse_rgb (pyNormalize raw).toList = none →
      hex_to_rgb_list (some raw) = hexSix (hexCandidate (pyNormalize raw)))
  ∧ hex_to_rgb_list none = [128, 128, 128]
  ∧ hex_to_rgb_list (some "green") = [0, 128, 0]
  ∧ hex_to_rgb_list (some "#abc") = [170, 187, 204]
  ∧ hex_to_rgb_list (some "rgb(10,20,300)") = [10, 20, 255]
  ∧ hex_to_rgb_list (some "") = [128, 128, 128] := by
  refine ⟨?_, ?_, ?_, rfl, by decide, by decide, by decide, by decide⟩
  · intro raw v h
    by_cases hs : pyNormalize raw = ""
    · rw [hs] at h
      have hnone : NAMED_lookup "" = none := by decide
      rw [hnone] at h
      cases h
    · simp only [hex_to_rgb_list, if_neg hs, h]
  · intro raw r g b h1 h2
    by_cases hs : pyNormalize raw = ""
    · rw [hs] at h2
      have hnone : parse_rgb ("" : String).toList = none := by decide
      rw [hnone] at h2
      cases h2
    · simp only [hex_to_rgb_list, if_neg hs, h1, h2]
  · intro raw h1 h2
    by_cases hs : pyNormalize raw = ""
    · simp only [hex_to_rgb_list, hs, if_pos]
      decide
    · simp only [hex_to_rgb_list, if_neg hs, h1, h2]

/-- Witness for C3: "green" hits the named-color lookup and yields
`(0, 128, 0)`. -/
theorem claim_C3_witness :
    NAMED_lookup (pyNormalize "green") = some [0, 128, 0]
  ∧ hex_to_rgb_list (some "green") = [0, 128, 0] :=
  ⟨by decide, claim_C3.1 "green" [0, 128, 0] (by decide)⟩

/-- C4: a table missing at least one required column makes `load_data` fail
with exactly the list of missing required columns and no partial table; with
all required columns present it never fails. -/
theorem claim_C4 :
    (∀ (parseTs : Cell → Option ℤ) (df : RawTable),
      (∃ c ∈ REQUIRED_COLS, ¬ df.cols.contains c) →
      load_data parseTs df =
        .error (REQUIRED_COLS.filter (fun c => !(df.cols.contains c))))
  ∧ (∀ (parseTs : Cell → Option ℤ) (df : RawTable),
      (∀ c ∈ REQUIRED_COLS, df.cols.contains c) →
      ∃ rows, load_data parseTs df = .ok rows) := by
  constructor
  · intro pt df ⟨c, hc, hnc⟩
    unfold load_data
    rw [if_neg]
    intro hnil
    have : c ∈ REQUIRED_COLS.filter (fun c => !(df.cols.contains c)) := by
      rw [List.mem_filter]
      exact ⟨hc, by simpa using hnc⟩
    rw [hnil] at this
    cases this
  · intro pt df hall
    unfold load_data
    rw [if_pos]
    · exact ⟨_, rfl⟩
    · rw [List.filter_eq_nil_iff]
      intro c hc
      simpa using hall c hc

/-- Witness for C4: a table with only `lat` and `lon` fails naming the eight
other required columns. -/
theorem claim_C4_witness :
    (∃ c ∈ REQUIRED_COLS, ¬ (RawTable.mk ["lat", "lon"] []).cols.contains c)
  ∧ load_data (fun _ => none) (RawTable.mk ["lat", "lon"] []) =
      .error ["ts", "fwd_path", "pole_id", "rail_incl_corrected", "misplacement",
              "rail_top_amsl", "asphalt_amsl", "shoulder_amsl"] := by
  refine ⟨⟨"ts", by decide, by decide⟩, ?_⟩
  have := claim_C4.1 (fun _ => none) (RawTable.mk ["lat", "lon"] [])
    ⟨"ts", by decide, by decide⟩
  rw [this]
  rfl

/-- C5: with all required columns present, normalization keeps every row,
assigns dense zero-based row identifiers equal to each row's position, turns
unparseable timestamps into a null timestamp with a null hour bucket, and
the hour bucket is in 0-23 exactly when the timestamp parsed; the 3-row
scenario with one unparseable timestamp yields 3 rows, exactly one null
hour bucket, and row identifiers 0, 1, 2. -/
theorem claim_C5 :
    (∀ (parseTs : Cell → Option ℤ) (df : RawTable) (rows : List CleanRow),
      load_data parseTs df = .ok rows →
        rows.length = df.rows.length
      ∧ (∀ j (h : j < rows.length), (rows.get ⟨j, h⟩).row_id = j)
      ∧ (∀ r ∈ rows,
          (r.hour = none ↔ r.ts = none) ∧ ∀ h, r.hour = some h → 0 ≤ h ∧ h < 24))
  ∧ (load_data demoParse demoTable).toOption.map
      (fun rows =>
        (rows.length, rows.map CleanRow.row_id,
         (rows.filter (fun r => r.hour.isNone)).length))
    = some (3, [0, 1, 2], 1) := by
  constructor
  · intro pt df rows hok
    simp only [load_data] at hok
    split at hok
    · injection hok with hok
      subst hok
      refine ⟨buildClean_length _ _ _, ?_, ?_⟩
      · intro j h
        rw [buildClean_row_id]
        omega
      · intro r hr
        obtain ⟨i₀, row₀, rfl⟩ := buildClean_mem _ _ _ _ hr
        exact ⟨mkCleanRow_hour_iff pt df.cols i₀ row₀,
               mkCleanRow_hour_bound pt df.cols i₀ row₀⟩
    · cases hok
  · rfl

/-- Witness for C5: the 3-row demo table loads successfully and the general
theorem applies to it. -/
theorem claim_C5_witness :
    load_data demoParse demoTable =
      .ok (buildClean (mkCleanRow demoParse demoTable.cols) 0 demoTable.rows)
  ∧ (buildClean (mkCleanRow demoParse demoTable.cols) 0 demoTable.rows).length
      = demoTable.rows.length :=
  ⟨rfl, (claim_C5.1 demoParse demoTable _ rfl).1⟩

/-- C6: the CSV export serializes a clear marker as an empty field (never a
null-token or the string "None") while the JSON Lines export keeps
`new_value` present and equal to JSON null for a clear (not omitted);
non-clear values are rendered by the one shared numeric rendering in both
formats. -/
theorem claim_C6 :
    (∀ edits : List EditRecord,
      exportCsv edits = String.intercalate "\n" (csvHeader :: edits.map csvRow) ++ "\n"
      ∧ exportJsonLines edits
          = String.join (edits.map (fun r => renderObj (jsonFields r) ++ "\n")))
  ∧ (∀ r : EditRecord, r.new_value = none →
        csv_new_value r.new_value = ""
      ∧ csv_new_value r.new_value ≠ "None"
      ∧ csv_new_value r.new_value ≠ "null"
      ∧ csv_new_value r.new_value ≠ "nan"
      ∧ (jsonFields r).lookup "new_value" = some JVal.jnull)
  ∧ (∀ (r : EditRecord) (q : ℚ), r.new_value = some q →
        csv_new_value r.new_value = floatRepr q
      ∧ (jsonFields r).lookup "new_value" = some (JVal.jnum q)
      ∧ renderJVal (JVal.jnum q) = floatRepr q) := by
  refine ⟨fun edits => ⟨rfl, rfl⟩, ?_, ?_⟩
  · intro r hn
    rw [show csv_new_value r.new_value = "" by rw [hn]; rfl]
    refine ⟨rfl, by decide, by decide, by decide, ?_⟩
    simp only [jsonFields, hn]
    rfl
  · intro r q hq
    refine ⟨by rw [hq]; rfl, ?_, rfl⟩
    simp only [jsonFields, hq]
    rfl

/-- Witness for C6: the clear-marker demo record serializes as an empty CSV
field and a JSON null. -/
theorem claim_C6_witness :
    demoEdit1.new_value = none
  ∧ csv_new_value demoEdit1.new_value = ""
  ∧ (jsonFields demoEdit1).lookup "new_value" = some JVal.jnull :=
  ⟨rfl, (claim_C6.2.1 demoEdit1 rfl).1, (claim_C6.2.1 demoEdit1 rfl).2.2.2.2⟩

/-- C7: the ledger is append-only with no merging or deduplication — two
appends for the same row/column pair leave both records in submission order,
and last-write-wins resolution returns the second record's value; in the
worked scenario the ledger holds exactly 2 records and resolves to `0.12`
for row 5. -/
theorem claim_C7 :
    (∀ (edits : List EditRecord) (r₁ r₂ : EditRecord),
      appendEdit (appendEdit edits r₁) r₂ = edits ++ [r₁, r₂]
      ∧ (appendEdit (appendEdit edits r₁) r₂).length = edits.length + 2)
  ∧ (∀ (edits : List EditRecord) (r₁ r₂ : EditRecord) (rid : ℤ) (col : String),
      r₂.row_id = rid → r₂.column = col →
      last_write_wins (appendEdit (appendEdit edits r₁) r₂) rid col
        = some r₂.new_value)
  ∧ appendEdit (appendEdit [] demoEdit1) demoEdit2 = [demoEdit1, demoEdit2]
  ∧ (appendEdit (appendEdit [] demoEdit1) demoEdit2).length = 2
  ∧ demoEdit1.row_id = 5 ∧ demoEdit1.column = "misplacement"
  ∧ demoEdit2.row_id = 5 ∧ demoEdit2.column = "misplacement"
  ∧ last_write_wins (appendEdit (appendEdit [] demoEdit1) demoEdit2) 5 "misplacement"
      = some (some (12/100)) := by
  refine ⟨?_, ?_, rfl, rfl, rfl, rfl, rfl, rfl, rfl⟩
  · intro edits r₁ r₂
    constructor
    · simp [appendEdit]
    · simp [appendEdit]
  · intro edits r₁ r₂ rid col h1 h2
    unfold last_write_wins appendEdit
    have hp : List.filter (fun r : EditRecord => r.row_id == rid && r.column == col) [r₂]
        = [r₂] := by
      simp [List.filter, h1, h2]
    rw [List.filter_append, hp, List.getLast?_concat]
    rfl

/-- Witness for C7: last-write-wins on the two-record demo ledger returns
the second record's value. -/
theorem claim_C7_witness :
    demoEdit2.row_id = 5 ∧ demoEdit2.column = "misplacement"
  ∧ last_write_wins (appendEdit (appendEdit [] demoEdit1) demoEdit2) 5 "misplacement"
      = some demoEdit2.new_value :=
  ⟨rfl, rfl, claim_C7.2.1 [] demoEdit1 demoEdit2 5 "misplacement" rfl rfl⟩

/-- C8: the CSV export reads the ledger state without changing it, so two
consecutive exports with no intervening append or clear produce identical
strings, hence byte-identical UTF-8 output. -/
theorem claim_C8 :
    ∀ edits : List EditRecord,
      exportCsvOp edits = (edits, exportCsv edits)
    ∧ (exportCsvOp (exportCsvOp edits).1).2 = (exportCsvOp edits).2
    ∧ (exportCsvOp (exportCsvOp edits).1).2.toUTF8 = (exportCsvOp edits).2.toUTF8 :=
  fun edits => ⟨rfl, rfl, rfl⟩

/-- C9 counterexample: the codec input "-10000" reaches the 6-character hex
branch, where Python's `int("-1", 16) = -1` produces the negative channel
`-1`, refuting the claim that every channel lies in `[0, 255]`. -/
theorem claim_C9_counterexample :
    hex_to_rgb_list (some "-10000") = [-1, 0, 0]
  ∧ ¬ (∀ x ∈ hex_to_rgb_list (some "-10000"), 0 ≤ x ∧ x ≤ 255) := by
  decide

/-- C9 (amended): for every input, each channel returned by the codec is an
integer in `[-15, 255]`; the named table, the `rgb()` pattern and digit-only
hex parses stay in `[0, 255]`, but a hex pair consisting of a sign and one
hex digit can reach `-15`. -/
theorem claim_C9_amended :
    ∀ (c : Option String), ∀ x ∈ hex_to_rgb_list c, -15 ≤ x ∧ x ≤ 255 := by
  intro c x hx
  cases c with
  | none => simp [hex_to_rgb_list] at hx; omega
  | some raw =>
    simp only [hex_to_rgb_list] at hx
    split at hx
    · simp at hx; omega
    · split at hx
      · next v hv =>
        have := (NAMED_lookup_spec hv).2 x hx
        omega
      · split at hx
        · next r g b hp =>
          simp only [List.mem_cons, List.not_mem_nil, or_false] at hx
          rcases hx with rfl | rfl | rfl
          · have := clamp_bounds (r : ℤ); omega
          · have := clamp_bounds (g : ℤ); omega
          · have := clamp_bounds (b : ℤ); omega
        · exact hexSix_bounds _ x hx

/-- Witness for C9 (amended): "-f0000" yields the channel `-15`, which the
amended bound covers. -/
theorem claim_C9_witness :
    (-15 : ℤ) ∈ hex_to_rgb_list (some "-f0000")
  ∧ (-15 ≤ (-15 : ℤ) ∧ (-15 : ℤ) ≤ 255) :=
  ⟨by decide, claim_C9_amended (some "-f0000") (-15) (by decide)⟩

/-- C10: the codec's named table accepts more names than the classifier ever
emits — `black` and `white` map to their RGB triples, case-insensitively and
with surrounding whitespace stripped, while `get_color` never returns
them. -/
theorem claim_C10 :
    (∀ v : Option ℚ, get_color v ≠ "black" ∧ get_color v ≠ "white")
  ∧ hex_to_rgb_list (some "black") = [0, 0, 0]
  ∧ hex_to_rgb_list (some "white") = [255, 255, 255]
  ∧ hex_to_rgb_list (some " BLACK ") = [0, 0, 0]
  ∧ hex_to_rgb_list (some "\tWhite\n") = [255, 255, 255] := by
  refine ⟨?_, by decide, by decide, by decide, by decide⟩
  intro v
  cases v with
  | none => exact ⟨by decide, by decide⟩
  | some q =>
    simp only [get_color]
    split_ifs <;> exact ⟨by decide, by decide⟩

end RailQC
